import Mathlib

/-!
Verification of the filtering and tree-construction core of code2prompt.

The repository source under scrutiny is src/lib.rs.  The library modules
filter.rs, path.rs, git.rs, template.rs and token.rs are not part of the
given sources; the components they implement (InclusionPolicy, TreeWalker,
git data sources, template rendering, sinks) are modelled from the
specification at their documented interfaces.
-/

namespace Code2Prompt

/-! ## Characters, trimming and splitting (embedding of Rust `str` helpers) -/

/-- Whitespace test used by trimming (Rust `char::is_whitespace`, restricted
to the ASCII whitespace actually relevant to pattern strings). -/
def isWS (c : Char) : Bool :=
  c = ' ' || c = '\t' || c = '\n' || c = '\r'

/-- Remove leading and trailing whitespace from a character list
(embedding of Rust `str::trim`). -/
def trimChars (cs : List Char) : List Char :=
  ((cs.dropWhile isWS).reverse.dropWhile isWS).reverse

/-- Split a character list at every comma, keeping empty segments
(embedding of Rust `str::split(',')`, which yields one segment per
comma-delimited region, empty regions included). -/
def splitComma : List Char → List (List Char)
  | [] => [[]]
  | c :: rest =>
    let r := splitComma rest
    if c = ',' then [] :: r
    else (c :: r.headD []) :: r.tail

/-! ## parse_patterns (src/lib.rs lines 172-179) -/

/-- Embedding of `parse_patterns` from src/lib.rs: `Some(p)` with `p`
nonempty is split on commas and each segment trimmed; anything else gives
the empty list.  Note the source does not drop empty segments. -/
def parse_patterns (patterns : Option String) : List String :=
  match patterns with
  | some p =>
    if p.data.isEmpty then []
    else (splitComma p.data).map (fun cs => (trimChars cs).asString)
  | none => []

/-! ## Glob matching and the PatternSet (spec section 4.1) -/

/-- Modelled from the spec: glob matching for the PatternSet of section 4.1
(the source module filter.rs is not among the given sources).  A `*` matches
any sequence of characters within one path segment (never a `/`), `**`
matches any sequence of characters across segments, every other character
matches itself, case-sensitively.  The first argument is fuel bounding the
recursion; `globMatch` below supplies enough fuel for full evaluation. -/
def globMatchFuel : Nat → List Char → List Char → Bool
  | 0, _, _ => false
  | _ + 1, [], [] => true
  | _ + 1, [], _ :: _ => false
  | f + 1, '*' :: '*' :: ps, s =>
    globMatchFuel f ps s ||
      (match s with
       | [] => false
       | _ :: s' => globMatchFuel f ('*' :: '*' :: ps) s')
  | f + 1, '*' :: ps, s =>
    globMatchFuel f ps s ||
      (match s with
       | [] => false
       | c :: s' => if c = '/' then false else globMatchFuel f ('*' :: ps) s')
  | _ + 1, _ :: _, [] => false
  | f + 1, p :: ps, c :: s => p = c && globMatchFuel f ps s

/-- Modelled from the spec: whether glob pattern `p` matches path `s`.
Every recursive step of `globMatchFuel` shortens pattern plus path by at
least one character, so this fuel always suffices. -/
def globMatch (p s : List Char) : Bool :=
  globMatchFuel (p.length + s.length + 1) p s

/-- Modelled from the spec: the PatternSet of section 4.1 — two ordered
pattern lists compiled from the include and exclude inputs. -/
structure PatternSet where
  include_patterns : List String
  exclude_patterns : List String

/-- Modelled from the spec: `matches_include` — true if the include list is
empty (default-match-all) or any include pattern matches the path. -/
def matches_include (ps : PatternSet) (path : String) : Bool :=
  ps.include_patterns.isEmpty
    || ps.include_patterns.any (fun p => globMatch p.data path.data)

/-- Modelled from the spec: `matches_exclude` — true if any exclude pattern
matches the path; false for an empty exclude list. -/
def matches_exclude (ps : PatternSet) (path : String) : Bool :=
  ps.exclude_patterns.any (fun p => globMatch p.data path.data)

/-! ## InclusionPolicy (spec section 4.3) -/

/-- The per-path decision of the inclusion policy. -/
structure Decision where
  show_in_tree : Bool
  include_content : Bool
deriving DecidableEq, Repr

/-- Modelled from the spec: the selection outcome of steps 2-3 of the
InclusionPolicy algorithm — when both an include and an exclude pattern
match, `include_priority` breaks the tie; otherwise the include verdict
stands (a path matching neither side of a nonempty include list is
excluded by omission). -/
def selectedFor (ps : PatternSet) (path : String) (include_priority : Bool) : Bool :=
  let inc := matches_include ps path
  let exc := matches_exclude ps path
  if inc && exc then include_priority else inc

/-- Modelled from the spec: `decide` of the InclusionPolicy (section 4.3,
the source module filter.rs is not among the given sources).  An ignored
path gets both flags false with no further checks; otherwise the selection
outcome fixes `include_content` (always false for directories) and
`show_in_tree` is true for selected paths and for unselected ones exactly
when `exclude_from_tree` is unset. -/
def decide_policy (ps : PatternSet) (path : String)
    (isDir ignored include_priority exclude_from_tree : Bool) : Decision :=
  if ignored then ⟨false, false⟩
  else
    let sel := selectedFor ps path include_priority
    ⟨sel || !exclude_from_tree, sel && !isDir⟩

/-! ## Filesystem snapshots and the TreeWalker (spec section 4.4) -/

/-- A filesystem snapshot: a named file with text content, or a named
directory with a list of children in the order the operating system
happened to enumerate them. -/
inductive FSEntry where
  | file (name : String) (content : String)
  | dir (name : String) (children : List FSEntry)

/-- The name of a filesystem entry. -/
def nameOf : FSEntry → String
  | .file n _ => n
  | .dir n _ => n

/-- Sort key of an entry: its name as a character list. -/
def keyOf (e : FSEntry) : List Char := (nameOf e).data

/-- Lexicographic name order on entries. -/
def entryLE (a b : FSEntry) : Prop := keyOf a ≤ keyOf b

/-- Strict lexicographic name order on entries. -/
def entryLT (a b : FSEntry) : Prop := keyOf a < keyOf b

instance : DecidableRel entryLE :=
  fun a b => inferInstanceAs (Decidable (keyOf a ≤ keyOf b))

instance : IsTotal FSEntry entryLE := ⟨fun a b => le_total (keyOf a) (keyOf b)⟩

instance : IsTrans FSEntry entryLE := ⟨fun _ _ _ h1 h2 => le_trans h1 h2⟩

instance : IsAntisymm FSEntry entryLT :=
  ⟨fun _ _ h1 h2 => absurd (lt_trans h1 h2) (lt_irrefl _)⟩

/-- Sort a directory's entries lexicographically by name
(spec section 4.4: within a directory, entries are sorted
lexicographically, directories and files interleaved). -/
def sortEntries (l : List FSEntry) : List FSEntry := List.insertionSort entryLE l

mutual
/-- Canonical form of a snapshot: every directory's children sorted
lexicographically by name, recursively.  Two enumerations of the same
unmodified directory differ only by sibling order, hence share one
canonical form. -/
def canon : FSEntry → FSEntry
  | .file n c => .file n c
  | .dir n ch => .dir n (sortEntries (canonList ch))

/-- Canonical forms of a list of entries, element by element. -/
def canonList : List FSEntry → List FSEntry
  | [] => []
  | t :: ts => canon t :: canonList ts
end

/-- Whether the top-level names of a list of entries are pairwise
distinct. -/
def distinctNames : List FSEntry → Bool
  | [] => true
  | t :: ts => ts.all (fun u => nameOf u != nameOf t) && distinctNames ts

mutual
/-- Whether the names within every directory of the snapshot are pairwise
distinct — true of any snapshot taken from a real filesystem. -/
def nodupNames : FSEntry → Bool
  | .file _ _ => true
  | .dir _ ch => distinctNames ch && allNodup ch

/-- The conjunction of `nodupNames` over every entry of a list. -/
def allNodup : List FSEntry → Bool
  | [] => true
  | t :: ts => nodupNames t && allNodup ts
end

mutual
/-- Equivalence of two snapshots of the same unmodified directory: equal
apart from the enumeration order of the children of each directory. -/
inductive EquivFS : FSEntry → FSEntry → Prop where
  | file (n c : String) : EquivFS (.file n c) (.file n c)
  | dir (n : String) {l1 l2 : List FSEntry} :
      EquivChildren l1 l2 → EquivFS (.dir n l1) (.dir n l2)

/-- Equivalence of two child lists: a permutation whose matched elements
are themselves equivalent snapshots. -/
inductive EquivChildren : List FSEntry → List FSEntry → Prop where
  | nil : EquivChildren [] []
  | cons {a b : FSEntry} {l1 l2 : List FSEntry} :
      EquivFS a b → EquivChildren l1 l2 → EquivChildren (a :: l1) (b :: l2)
  | swap {a a' b b' : FSEntry} {l1 l2 : List FSEntry} :
      EquivFS a a' → EquivFS b b' → EquivChildren l1 l2 →
      EquivChildren (a :: b :: l1) (b' :: a' :: l2)
  | trans {l1 l2 l3 : List FSEntry} :
      EquivChildren l1 l2 → EquivChildren l2 l3 → EquivChildren l1 l3
end

/-- One file record of the walker's output sequence (the fields the
downstream consumers read: the matched path and the file's content). -/
structure FileRec where
  path : String
  content : String
deriving DecidableEq, Repr

/-- Path of a child entry: the parent path extended by one segment,
forward-slash separated, relative to the traversal root. -/
def joinPath (parent n : String) : String :=
  if parent = "" then n else parent ++ "/" ++ n

/-- Connector glyph of a tree line, distinguishing the last sibling. -/
def connOf (isLast : Bool) : String := if isLast then "└── " else "├── "

/-- Indentation a directory passes to its children's tree lines. -/
def childIndent (isLast : Bool) : String := if isLast then "    " else "│   "

mutual
/-- Modelled from the spec: the TreeWalker of section 4.4 (the source
module path.rs is not among the given sources), applied to a canonical
(pre-sorted) snapshot.  Depth-first pre-order; the ignore verdict `ign`
prunes ignored directories entirely; every other entry is shown in the
tree when the InclusionPolicy says so, and a file contributes a record
exactly when its content is included; a directory is recursed into
regardless of its own decision. -/
def walkSorted (ps : PatternSet) (ign : String → Bool)
    (include_priority exclude_from_tree : Bool) (parent pre : String)
    (isLast : Bool) : FSEntry → List String × List FileRec
  | .file n c =>
    let full := joinPath parent n
    let d := decide_policy ps full false (ign full) include_priority exclude_from_tree
    ((if d.show_in_tree then [pre ++ connOf isLast ++ n] else []),
     (if d.include_content then [⟨full, c⟩] else []))
  | .dir n ch =>
    let full := joinPath parent n
    if ign full then ([], [])
    else
      let d := decide_policy ps full true false include_priority exclude_from_tree
      let rest := walkSortedList ps ign include_priority exclude_from_tree full
        (pre ++ childIndent isLast) ch
      ((if d.show_in_tree then [pre ++ connOf isLast ++ n] else []) ++ rest.1,
       rest.2)

/-- Walk the children of one directory in order, marking the last sibling. -/
def walkSortedList (ps : PatternSet) (ign : String → Bool)
    (include_priority exclude_from_tree : Bool) (parent pre : String) :
    List FSEntry → List String × List FileRec
  | [] => ([], [])
  | [t] => walkSorted ps ign include_priority exclude_from_tree parent pre true t
  | t :: t' :: ts =>
    let r1 := walkSorted ps ign include_priority exclude_from_tree parent pre false t
    let r2 := walkSortedList ps ign include_priority exclude_from_tree parent pre (t' :: ts)
    (r1.1 ++ r2.1, r1.2 ++ r2.2)
end

/-- Modelled from the spec: `traverse_directory` (section 4.4, the source
module path.rs is not among the given sources).  A missing root or a root
that is not a directory is a traversal error; otherwise every directory's
entries are sorted lexicographically by name (the snapshot is
canonicalised) and walked depth-first in pre-order, the tree text opening
with the root's label. -/
def traverse_modelled (ps : PatternSet) (ign : String → Bool)
    (include_priority exclude_from_tree : Bool) :
    Option FSEntry → Except String (String × List FileRec)
  | none => .error "root path does not exist"
  | some (.file _ _) => .error "root path is not a directory"
  | some (.dir n ch) =>
    let r := walkSortedList ps ign include_priority exclude_from_tree "" ""
      (sortEntries (canonList ch))
    .ok (String.intercalate "\n" (n :: r.1), r.2)

/-! ## generate_prompt (src/lib.rs lines 40-160)

The external collaborators called by `generate_prompt` (template loading
and setup, the directory traversal, the git data sources, the renderer,
the tokenizer, the clipboard and the output-file writer) are supplied as
an environment of call results, one field per call site in src/lib.rs;
the embedding reproduces the source's control flow over them. -/

/-- The template data assembled at src/lib.rs lines 91-98 and handed to
`handle_undefined_variables` and `render_template`. -/
structure TemplateData where
  absolute_code_path : String
  source_tree : String
  files : List FileRec
  git_diff : String
  git_diff_branch : String
  git_log_branch : String
deriving DecidableEq, Repr

/-- Results of the external calls `generate_prompt` makes, one field per
call site in src/lib.rs.  An `Option String` git field is `none` when the
call fails (`Err`), mirroring `unwrap_or_default`. -/
structure GenEnv where
  templateResult : Except String (String × String)
  handlebarsResult : Except String Unit
  traverseResult : Except String (String × List FileRec)
  gitDiffResult : Option String
  gitDiffBranchResult : Option String
  gitLogResult : Option String
  undefinedVarsResult : Except String Unit
  renderResult : TemplateData → Except String String
  tokenCount : String → Nat
  modelInfo : String
  clipboardResult : Except String Unit
  writeResult : Except String Unit

/-- The fields of `Code2PromptConfig` (src/lib.rs lines 19-38) that steer
the control flow of `generate_prompt`; `path_label` is `label(&config.path)`. -/
structure GenConfig where
  path_label : String
  include_arg : Option String
  exclude_arg : Option String
  diff : Bool
  git_diff_branch : Option String
  git_log_branch : Option String
  output : Option String
  no_clipboard : Bool
  json : Bool

/-- The outcome value of a successful run: the rendered text, or — on the
JSON branch of src/lib.rs lines 122-131 — the pretty-printed object built
from the rendered prompt, the directory label, the token count, the model
info and the record paths. -/
inductive Output where
  | text (s : String)
  | jsonOut (prompt : String) (directory_name : String) (token_count : Nat)
      (model_info : String) (files : List String)
deriving DecidableEq, Repr

/-- A run's observable outcome: the returned value or error, plus which
side effects happened (whether `traverse_directory` was invoked, which
data record reached the render stage, whether the clipboard copy and the
output-file write were attempted). -/
structure RunResult where
  result : Except String Output
  traversalRan : Bool
  dataFed : Option TemplateData
  clipboardInvoked : Bool
  fileWriteInvoked : Bool

/-- Embedding of the branch-list handling at src/lib.rs lines 69-77 and
80-88: the argument is split by `parse_patterns`; anything but exactly two
branches is an error; otherwise the git text is the call's result, empty
on failure. -/
def branchText (branchArg : Option String) (callResult : Option String) :
    Except String String :=
  match branchArg with
  | some branches =>
    if (parse_patterns (some branches)).length ≠ 2 then
      .error "Please provide exactly two branches separated by a comma."
    else .ok (callResult.getD "")
  | none => .ok ""

/-- Embedding of the tail of `generate_prompt` after rendering
(src/lib.rs lines 107-159): the JSON branch returns at once; otherwise
the clipboard copy is attempted unless disabled (a failure is only
logged) and the output file is written when a path was given (a failure
is propagated). -/
def afterRender (cfg : GenConfig) (env : GenEnv) (data : TemplateData)
    (rendered : String) (files : List FileRec) : RunResult :=
  if cfg.json then
    ⟨.ok (.jsonOut rendered cfg.path_label (env.tokenCount rendered)
        env.modelInfo (files.map (fun f => f.path))),
     true, some data, false, false⟩
  else
    match cfg.output with
    | some _ =>
      match env.writeResult with
      | .error e => ⟨.error e, true, some data, !cfg.no_clipboard, true⟩
      | .ok _ => ⟨.ok (.text rendered), true, some data, !cfg.no_clipboard, true⟩
    | none => ⟨.ok (.text rendered), true, some data, !cfg.no_clipboard, false⟩

/-- Embedding of `generate_prompt` from the data assembly on
(src/lib.rs lines 100-159): undefined-variable handling, rendering, then
`afterRender`. -/
def afterData (cfg : GenConfig) (env : GenEnv) (data : TemplateData)
    (files : List FileRec) : RunResult :=
  match env.undefinedVarsResult with
  | .error e => ⟨.error e, true, some data, false, false⟩
  | .ok _ =>
    match env.renderResult data with
    | .error e => ⟨.error e, true, some data, false, false⟩
    | .ok rendered => afterRender cfg env data rendered files

/-- Embedding of `generate_prompt` (src/lib.rs lines 40-160): template
setup, pattern parsing, traversal, git texts (a failed git call yields the
empty string), data assembly, then `afterData`. -/
def generate_prompt (cfg : GenConfig) (env : GenEnv) : RunResult :=
  match env.templateResult with
  | .error e => ⟨.error e, false, none, false, false⟩
  | .ok _ =>
    match env.handlebarsResult with
    | .error e => ⟨.error e, false, none, false, false⟩
    | .ok _ =>
      let _include_patterns := parse_patterns cfg.include_arg
      let _exclude_patterns := parse_patterns cfg.exclude_arg
      match env.traverseResult with
      | .error e => ⟨.error e, true, none, false, false⟩
      | .ok (tree, files) =>
        let git_diff := if cfg.diff then env.gitDiffResult.getD "" else ""
        match branchText cfg.git_diff_branch env.gitDiffBranchResult with
        | .error e => ⟨.error e, true, none, false, false⟩
        | .ok git_diff_branch =>
          match branchText cfg.git_log_branch env.gitLogResult with
          | .error e => ⟨.error e, true, none, false, false⟩
          | .ok git_log_branch =>
            afterData cfg env
              ⟨cfg.path_label, tree, files, git_diff, git_diff_branch, git_log_branch⟩
              files

/-- A concrete environment in which every external call succeeds, used by
the concrete runs below. -/
def envAllOk : GenEnv :=
  ⟨.ok ("T", "default"), .ok (), .ok ("tree", []), some "d", some "db",
   some "lb", .ok (), fun _ => .ok "R", fun _ => 0, "m", .ok (), .ok ()⟩

/-- A concrete environment in which all three git retrievals fail and
everything else succeeds. -/
def envGitFail : GenEnv :=
  ⟨.ok ("T", "default"), .ok (), .ok ("tree", []), none, none, none,
   .ok (), fun _ => .ok "R", fun _ => 0, "m", .ok (), .ok ()⟩

/-- A concrete environment whose traversal result is the error returned by
the walk on a missing root. -/
def envNoRoot : GenEnv :=
  ⟨.ok ("T", "default"), .ok (), .error "root path does not exist", some "d",
   some "db", some "lb", .ok (), fun _ => .ok "R", fun _ => 0, "m", .ok (),
   .ok ()⟩

/-! ## Claims about parse_patterns (C1, C9) -/

/-- C1 (counterexample): pattern compilation does not drop empty
segments — the input "a,,b" yields ["a", "", "b"], not ["a", "b"], and
"a," yields ["a", ""], so the resulting pattern list can contain the
empty string. -/
theorem claim_C1_counterexample :
    parse_patterns (some "a,,b") ≠ ["a", "b"] ∧
    parse_patterns (some "a,,b") = ["a", "", "b"] ∧
    parse_patterns (some "a,") = ["a", ""] ∧
    "" ∈ parse_patterns (some "a,,b") :=
  ⟨by decide, rfl, rfl, by decide⟩

/-- C1 (amended): pattern compilation splits the input string on commas
and trims each segment of surrounding whitespace, producing one pattern
per comma-separated segment of a nonempty input; empty segments are kept,
so "a,,b" yields ["a", "", "b"] and "a," yields ["a", ""]. -/
theorem claim_C1 :
    (∀ s : String, (parse_patterns (some s)).length =
      if s.data.isEmpty then 0 else (splitComma s.data).length) ∧
    parse_patterns (some " a , b ") = ["a", "b"] ∧
    parse_patterns (some "a,,b") = ["a", "", "b"] ∧
    parse_patterns (some "a,") = ["a", ""] := by
  refine ⟨fun s => ?_, rfl, rfl, rfl⟩
  simp only [parse_patterns]
  by_cases h : s.data.isEmpty <;> simp [h]

/-- C9: an absent pattern string and the empty string both compile to the
empty pattern list, so supplying neither include nor exclude input yields
two empty lists. -/
theorem claim_C9 :
    parse_patterns none = [] ∧ parse_patterns (some "") = [] :=
  ⟨rfl, rfl⟩

/-! ## Claims about the InclusionPolicy (C3, C4, C5) -/

/-- C4: an ignored path gets the decision
`{show_in_tree := false, include_content := false}` whatever the pattern
set, the flag `include_priority` and the flag `exclude_from_tree` are,
for files and directories alike. -/
theorem claim_C4 :
    ∀ (ps : PatternSet) (path : String) (isDir prio eft : Bool),
      decide_policy ps path isDir true prio eft = ⟨false, false⟩ :=
  fun _ _ _ _ _ => rfl

/-- C3 (counterexample): a file can be shown in the tree while its
ancestor directory is hidden.  With an empty include list, the exclude
pattern "b" and `exclude_from_tree` set, the inclusion policy shows and
content-includes the file "b/c.txt" but hides the directory "b", and the
walk of a snapshot holding only that file renders the file's line with no
line for "b". -/
theorem claim_C3_counterexample :
    (decide_policy ⟨[], ["b"]⟩ "b/c.txt" false false false true).show_in_tree = true ∧
    (decide_policy ⟨[], ["b"]⟩ "b/c.txt" false false false true).include_content = true ∧
    (decide_policy ⟨[], ["b"]⟩ "b" true false false true).show_in_tree = false ∧
    traverse_modelled ⟨[], ["b"]⟩ (fun _ => false) false true
        (some (.dir "root" [.dir "b" [.file "c.txt" "x"]])) =
      .ok ("root\n    └── c.txt", [⟨"b/c.txt", "x"⟩]) :=
  ⟨by decide, by decide, by decide, rfl⟩

/-- C3 (amended): for every path evaluated by the inclusion policy,
`include_content = true` implies `show_in_tree = true` for that path; the
ancestor half of the claim fails (see the counterexample), because a
directory hidden by `exclude_from_tree` does not hide its descendants. -/
theorem claim_C3 :
    ∀ (ps : PatternSet) (path : String) (isDir ignored prio eft : Bool),
      (decide_policy ps path isDir ignored prio eft).include_content = true →
      (decide_policy ps path isDir ignored prio eft).show_in_tree = true := by
  intro ps path isDir ignored prio eft h
  cases ignored <;> simp_all [decide_policy]

/-- C3 witness: a concrete content-included path is shown in the tree. -/
theorem claim_C3_witness :
    (decide_policy ⟨[], []⟩ "a.txt" false false true true).include_content = true ∧
    (decide_policy ⟨[], []⟩ "a.txt" false false true true).show_in_tree = true :=
  ⟨by decide, claim_C3 ⟨[], []⟩ "a.txt" false false true true (by decide)⟩

/-- C5: for a non-ignored path matched by both an include and an exclude
pattern, the selection outcome equals `include_priority`, and the policy
applies this tie-break identically to files and to directories: both get
the same tree visibility, and a file's content is included exactly when
`include_priority` is true. -/
theorem claim_C5 (ps : PatternSet) (path : String)
    (h1 : matches_include ps path = true) (h2 : matches_exclude ps path = true)
    (prio eft : Bool) :
    selectedFor ps path prio = prio ∧
    (decide_policy ps path false false prio eft).show_in_tree = (prio || !eft) ∧
    (decide_policy ps path true false prio eft).show_in_tree = (prio || !eft) ∧
    (decide_policy ps path false false prio eft).include_content = prio := by
  simp [selectedFor, decide_policy, h1, h2]

/-- C5 witness: "b/c.txt" is matched by the include pattern "**" and the
exclude pattern "b/*"; with `include_priority` set the tie-break selects
inclusion for file and directory alike. -/
theorem claim_C5_witness :
    matches_include ⟨["**"], ["b/*"]⟩ "b/c.txt" = true ∧
    matches_exclude ⟨["**"], ["b/*"]⟩ "b/c.txt" = true ∧
    (selectedFor ⟨["**"], ["b/*"]⟩ "b/c.txt" true = true ∧
      (decide_policy ⟨["**"], ["b/*"]⟩ "b/c.txt" false false true false).show_in_tree =
        (true || !false) ∧
      (decide_policy ⟨["**"], ["b/*"]⟩ "b/c.txt" true false true false).show_in_tree =
        (true || !false) ∧
      (decide_policy ⟨["**"], ["b/*"]⟩ "b/c.txt" false false true false).include_content =
        true) :=
  ⟨by decide, by decide,
    claim_C5 ⟨["**"], ["b/*"]⟩ "b/c.txt" (by decide) (by decide) true false⟩

/-! ## Determinism of the walk (C6) -/

/-- Two strings with equal character data are equal. -/
theorem string_eq_of_data {s t : String} (h : s.data = t.data) : s = t := by
  cases s; cases t; exact congrArg String.mk h

/-- Canonicalisation keeps an entry's name. -/
theorem nameOf_canon (t : FSEntry) : nameOf (canon t) = nameOf t := by
  cases t <;> rfl

/-- Canonicalising a list of entries keeps the name sequence. -/
theorem map_nameOf_canonList (l : List FSEntry) :
    (canonList l).map nameOf = l.map nameOf := by
  induction l with
  | nil => rfl
  | cons t ts ih => simp [canonList, nameOf_canon, ih]

/-- The check `distinctNames` agrees with the name list having no duplicate. -/
theorem distinctNames_iff (l : List FSEntry) :
    distinctNames l = true ↔ (l.map nameOf).Nodup := by
  induction l with
  | nil => simp [distinctNames]
  | cons t ts ih =>
    simp [distinctNames, List.all_eq_true, ih, List.nodup_cons, List.mem_map,
      bne_iff_ne]

/-- Sorting a directory's entries permutes them. -/
theorem sortEntries_perm (l : List FSEntry) : (sortEntries l).Perm l :=
  List.perm_insertionSort _ _

/-- Sorted entries are in weak lexicographic name order. -/
theorem sortEntries_sorted (l : List FSEntry) :
    List.Sorted entryLE (sortEntries l) :=
  List.sorted_insertionSort _ _

/-- A weakly name-sorted list with pairwise distinct names is strictly
name-sorted. -/
theorem sorted_strict_of_nodup {l : List FSEntry}
    (hs : List.Sorted entryLE l) (hn : (l.map nameOf).Nodup) :
    List.Sorted entryLT l := by
  have hpair : l.Pairwise (fun a b => nameOf a ≠ nameOf b) :=
    List.pairwise_map.mp hn
  exact (hs.and hpair).imp (fun h =>
    lt_of_le_of_ne h.1 (fun hk => h.2 (string_eq_of_data hk)))

/-- Two permuted entry lists with pairwise distinct names sort to the same
list — the heart of the walk's determinism: however the operating system
enumerates a directory, sorting yields one canonical order. -/
theorem sortEntries_eq_of_perm {l1 l2 : List FSEntry}
    (h : l1.Perm l2) (hn : (l1.map nameOf).Nodup) :
    sortEntries l1 = sortEntries l2 := by
  have p : (sortEntries l1).Perm (sortEntries l2) :=
    ((sortEntries_perm l1).trans h).trans (sortEntries_perm l2).symm
  have hn1 : ((sortEntries l1).map nameOf).Nodup :=
    (((sortEntries_perm l1).map nameOf).nodup_iff).mpr hn
  have hn2 : ((sortEntries l2).map nameOf).Nodup :=
    ((p.map nameOf).nodup_iff).mp hn1
  exact List.eq_of_perm_of_sorted p
    (sorted_strict_of_nodup (sortEntries_sorted l1) hn1)
    (sorted_strict_of_nodup (sortEntries_sorted l2) hn2)

/-- Equivalent snapshots share name, duplicate-freeness, and — when names
within each directory are distinct — their canonical form.  Proved by
mutual induction over the `EquivFS`/`EquivChildren` derivation. -/
theorem equivFS_props {t1 t2 : FSEntry} (h : EquivFS t1 t2) :
    nameOf t1 = nameOf t2 ∧ (nodupNames t1 = true → nodupNames t2 = true) ∧
      (nodupNames t1 = true → canon t1 = canon t2) := by
  refine @EquivFS.rec
    (fun t1 t2 _ => nameOf t1 = nameOf t2 ∧
      (nodupNames t1 = true → nodupNames t2 = true) ∧
      (nodupNames t1 = true → canon t1 = canon t2))
    (fun l1 l2 _ => (l1.map nameOf).Perm (l2.map nameOf) ∧
      (allNodup l1 = true → allNodup l2 = true) ∧
      (allNodup l1 = true → (canonList l1).Perm (canonList l2)))
    ?_ ?_ ?_ ?_ ?_ ?_ t1 t2 h
  · exact fun n c => ⟨rfl, id, fun _ => rfl⟩
  · intro n l1 l2 _ ih
    refine ⟨rfl, ?_, ?_⟩
    · intro hd
      simp only [nodupNames, Bool.and_eq_true] at hd ⊢
      exact ⟨(distinctNames_iff l2).mpr ((ih.1.nodup_iff).mp
          ((distinctNames_iff l1).mp hd.1)),
        ih.2.1 hd.2⟩
    · intro hd
      simp only [nodupNames, Bool.and_eq_true] at hd
      simp only [canon]
      rw [sortEntries_eq_of_perm (ih.2.2 hd.2)
        (by rw [map_nameOf_canonList]; exact (distinctNames_iff l1).mp hd.1)]
  · exact ⟨.refl _, id, fun _ => .refl _⟩
  · intro a b l1 l2 hfs hch ih1 ih2
    refine ⟨?_, ?_, ?_⟩
    · simp only [List.map_cons]
      rw [ih1.1]
      exact ih2.1.cons _
    · intro hd
      simp only [allNodup, Bool.and_eq_true] at hd ⊢
      exact ⟨ih1.2.1 hd.1, ih2.2.1 hd.2⟩
    · intro hd
      simp only [allNodup, Bool.and_eq_true] at hd
      simp only [canonList]
      rw [ih1.2.2 hd.1]
      exact (ih2.2.2 hd.2).cons _
  · intro a a' b b' l1 l2 ha hb hch iha ihb ih
    refine ⟨?_, ?_, ?_⟩
    · simp only [List.map_cons]
      rw [iha.1, ihb.1]
      exact List.Perm.swap' _ _ ih.1
    · intro hd
      simp only [allNodup, Bool.and_eq_true] at hd ⊢
      exact ⟨ihb.2.1 hd.2.1, iha.2.1 hd.1, ih.2.1 hd.2.2⟩
    · intro hd
      simp only [allNodup, Bool.and_eq_true] at hd
      simp only [canonList]
      rw [iha.2.2 hd.1, ihb.2.2 hd.2.1]
      exact List.Perm.swap' _ _ (ih.2.2 hd.2.2)
  · intro l1 l2 l3 h12 h23 ih1 ih2
    exact ⟨ih1.1.trans ih2.1, fun hd => ih2.2.1 (ih1.2.1 hd),
      fun hd => (ih1.2.2 hd).trans (ih2.2.2 (ih1.2.1 hd))⟩

/-- Equivalent snapshots with distinct sibling names canonicalise
identically. -/
theorem canon_eq_of_equiv {t1 t2 : FSEntry} (h : EquivFS t1 t2)
    (hn : nodupNames t1 = true) : canon t1 = canon t2 :=
  (equivFS_props h).2.2 hn

/-- C6: the walk is deterministic.  Two runs of `traverse_modelled` with
the same configuration over the same unmodified directory — two snapshots
that differ only in the enumeration order of each directory's children,
with sibling names pairwise distinct as on a real filesystem — return the
identical tree text and the identical file-record sequence (entries of
each directory sorted lexicographically, records in depth-first
pre-order by construction of the walk). -/
theorem claim_C6 (ps : PatternSet) (ign : String → Bool) (prio eft : Bool)
    {t1 t2 : FSEntry} (he : EquivFS t1 t2) (hn : nodupNames t1 = true) :
    traverse_modelled ps ign prio eft (some t1) =
      traverse_modelled ps ign prio eft (some t2) := by
  have hc := canon_eq_of_equiv he hn
  cases he with
  | file n c => rfl
  | dir n h =>
    simp only [canon] at hc
    simp only [traverse_modelled]
    rw [FSEntry.dir.injEq] at hc
    rw [hc.2]

/-- C6 witness: the two enumeration orders of a directory holding the
files "a" and "b" produce the same walk output. -/
theorem claim_C6_witness :
    nodupNames (.dir "r" [.file "b" "2", .file "a" "1"]) = true ∧
    traverse_modelled ⟨[], []⟩ (fun _ => false) false false
        (some (.dir "r" [.file "b" "2", .file "a" "1"])) =
      traverse_modelled ⟨[], []⟩ (fun _ => false) false false
        (some (.dir "r" [.file "a" "1", .file "b" "2"])) :=
  ⟨rfl, claim_C6 ⟨[], []⟩ (fun _ => false) false false
    (.dir "r" (.swap (.file "b" "2") (.file "a" "1") .nil)) rfl⟩

/-! ## Claims about generate_prompt (C2, C7, C8, C10) -/

/-- The deep stage of a run always records the data it was handed. -/
theorem afterData_dataFed (cfg : GenConfig) (env : GenEnv)
    (data : TemplateData) (files : List FileRec) :
    (afterData cfg env data files).dataFed = some data := by
  unfold afterData afterRender
  repeat' split
  all_goals rfl

/-- A branch-list stage that succeeds over a failed git call yields the
empty string. -/
theorem branchText_none_ok {arg : Option String} {s : String}
    (h : branchText arg none = .ok s) : s = "" := by
  cases arg with
  | none => simpa [branchText] using h.symm
  | some b =>
    simp only [branchText] at h
    split at h
    · cases h
    · simpa using h.symm

/-- C2 (counterexample): a git branch list naming one branch instead of
two makes `generate_prompt` fail — but only after the directory traversal
has run, contradicting the claim that no traversal work is performed on
such a run. -/
theorem claim_C2_counterexample :
    (generate_prompt ⟨"lbl", none, none, false, some "main", none, none,
        false, false⟩ envAllOk).result =
      .error "Please provide exactly two branches separated by a comma." ∧
    (generate_prompt ⟨"lbl", none, none, false, some "main", none, none,
        false, false⟩ envAllOk).traversalRan = true :=
  ⟨rfl, rfl⟩

/-- C2 (amended): a malformed branch-list input (not exactly two
comma-separated branches) makes `generate_prompt` return an error before
any data is assembled, rendered, copied or written — but the check runs
after `traverse_directory`, so traversal work is performed on such a
run. -/
theorem claim_C2 (cfg : GenConfig) (env : GenEnv) (b : String)
    (hb : cfg.git_diff_branch = some b)
    (hlen : (parse_patterns (some b)).length ≠ 2)
    (tp : String × String) (ht : env.templateResult = .ok tp)
    (hh : env.handlebarsResult = .ok ()) :
    (∃ e, (generate_prompt cfg env).result = .error e) ∧
    (generate_prompt cfg env).traversalRan = true ∧
    (generate_prompt cfg env).dataFed = none ∧
    (generate_prompt cfg env).clipboardInvoked = false ∧
    (generate_prompt cfg env).fileWriteInvoked = false := by
  simp only [generate_prompt, ht, hh, hb, branchText]
  cases htr : env.traverseResult with
  | error e => simp
  | ok p =>
    cases p with
    | mk tree files => simp [hlen]

/-- C2 witness: a one-branch input over an otherwise successful run. -/
theorem claim_C2_witness :
    (∃ e, (generate_prompt ⟨"lbl", none, none, false, some "x", none, none,
        false, false⟩ envAllOk).result = .error e) ∧
    (generate_prompt ⟨"lbl", none, none, false, some "x", none, none,
        false, false⟩ envAllOk).traversalRan = true ∧
    (generate_prompt ⟨"lbl", none, none, false, some "x", none, none,
        false, false⟩ envAllOk).dataFed = none ∧
    (generate_prompt ⟨"lbl", none, none, false, some "x", none, none,
        false, false⟩ envAllOk).clipboardInvoked = false ∧
    (generate_prompt ⟨"lbl", none, none, false, some "x", none, none,
        false, false⟩ envAllOk).fileWriteInvoked = false :=
  claim_C2 ⟨"lbl", none, none, false, some "x", none, none, false, false⟩
    envAllOk "x" rfl (by decide) ("T", "default") rfl rfl

/-- C7: when retrieving the git diff, the branch diff and the branch log
all fail, the run behaves exactly as if each had returned the empty
string — the failure is never fatal — and any data record fed to the
renderer carries empty git texts. -/
theorem claim_C7 (cfg : GenConfig) (env : GenEnv)
    (hd : env.gitDiffResult = none) (hb : env.gitDiffBranchResult = none)
    (hl : env.gitLogResult = none) :
    generate_prompt cfg env =
      generate_prompt cfg
        { env with
            gitDiffResult := some "",
            gitDiffBranchResult := some "",
            gitLogResult := some "" } ∧
    ∀ d, (generate_prompt cfg env).dataFed = some d →
      d.git_diff = "" ∧ d.git_diff_branch = "" ∧ d.git_log_branch = "" := by
  cases env with
  | mk et eh etr ed edb edl eu er etok emi ecl ew =>
    cases hd; cases hb; cases hl
    constructor
    · cases et with
      | error e => rfl
      | ok tp =>
        cases eh with
        | error e => rfl
        | ok u =>
          cases etr with
          | error e => rfl
          | ok p =>
            cases p with
            | mk tree files =>
              simp [generate_prompt, branchText, afterData, afterRender]
    · intro d hdf
      cases et with
      | error e => simp [generate_prompt] at hdf
      | ok tp =>
        cases eh with
        | error e => simp [generate_prompt] at hdf
        | ok u =>
          cases etr with
          | error e => simp [generate_prompt] at hdf
          | ok p =>
            cases p with
            | mk tree files =>
              simp only [generate_prompt] at hdf
              cases hb1 : branchText cfg.git_diff_branch none with
              | error e => simp [hb1] at hdf
              | ok gdb =>
                cases hb2 : branchText cfg.git_log_branch none with
                | error e => simp [hb1, hb2] at hdf
                | ok glb =>
                  simp only [hb1, hb2, afterData_dataFed, Option.some.injEq] at hdf
                  subst hdf
                  refine ⟨?_, (branchText_none_ok hb1).symm ▸ rfl,
                    (branchText_none_ok hb2).symm ▸ rfl⟩
                  cases hcd : cfg.diff <;> simp [hcd]

/-- C7 witness: a concrete run with all three git calls failing, with
`diff` requested, equals the run in which they return empty strings. -/
theorem claim_C7_witness :
    generate_prompt ⟨"lbl", none, none, true, none, none, none, true, false⟩
        envGitFail =
      generate_prompt ⟨"lbl", none, none, true, none, none, none, true, false⟩
        { envGitFail with
            gitDiffResult := some "",
            gitDiffBranchResult := some "",
            gitLogResult := some "" } ∧
    ∀ d, (generate_prompt ⟨"lbl", none, none, true, none, none, none, true,
        false⟩ envGitFail).dataFed = some d →
      d.git_diff = "" ∧ d.git_diff_branch = "" ∧ d.git_log_branch = "" :=
  claim_C7 ⟨"lbl", none, none, true, none, none, none, true, false⟩
    envGitFail rfl rfl rfl

/-- C8: a missing root or a root that is not a directory makes the
modelled walk fail with a traversal error, and `generate_prompt`
propagates exactly that error: the run returns it, assembles no data,
and touches neither the clipboard nor the output file. -/
theorem claim_C8 (ps : PatternSet) (ign : String → Bool) (prio eft : Bool)
    (root : Option FSEntry)
    (hroot : root = none ∨ ∃ n c, root = some (.file n c))
    (cfg : GenConfig) (env : GenEnv) (tp : String × String)
    (ht : env.templateResult = .ok tp) (hh : env.handlebarsResult = .ok ())
    (htr : env.traverseResult = traverse_modelled ps ign prio eft root) :
    ∃ e, traverse_modelled ps ign prio eft root = .error e ∧
      (generate_prompt cfg env).result = .error e ∧
      (generate_prompt cfg env).dataFed = none ∧
      (generate_prompt cfg env).clipboardInvoked = false ∧
      (generate_prompt cfg env).fileWriteInvoked = false := by
  have herr : ∃ e, traverse_modelled ps ign prio eft root = .error e := by
    rcases hroot with h | ⟨n, c, h⟩ <;> subst h
    · exact ⟨_, rfl⟩
    · exact ⟨_, rfl⟩
  obtain ⟨e, he⟩ := herr
  refine ⟨e, he, ?_⟩
  rw [he] at htr
  simp [generate_prompt, ht, hh, htr]

/-- C8 witness: a run over a missing root propagates the walk's error. -/
theorem claim_C8_witness :
    ∃ e, traverse_modelled ⟨[], []⟩ (fun _ => false) false false none =
        .error e ∧
      (generate_prompt ⟨"lbl", none, none, false, none, none, none, false,
          false⟩ envNoRoot).result = .error e ∧
      (generate_prompt ⟨"lbl", none, none, false, none, none, none, false,
          false⟩ envNoRoot).dataFed = none ∧
      (generate_prompt ⟨"lbl", none, none, false, none, none, none, false,
          false⟩ envNoRoot).clipboardInvoked = false ∧
      (generate_prompt ⟨"lbl", none, none, false, none, none, none, false,
          false⟩ envNoRoot).fileWriteInvoked = false :=
  claim_C8 ⟨[], []⟩ (fun _ => false) false false none (Or.inl rfl)
    ⟨"lbl", none, none, false, none, none, none, false, false⟩ envNoRoot
    ("T", "default") rfl rfl rfl

/-- C10: with `json` set, a run never attempts the clipboard copy and
never writes the output file — even when `no_clipboard` is false and an
output path is given — and any successful result is the JSON output built
over the rendered prompt, the directory label, the token count and the
model info. -/
theorem claim_C10 (cfg : GenConfig) (env : GenEnv) (hj : cfg.json = true) :
    (generate_prompt cfg env).clipboardInvoked = false ∧
    (generate_prompt cfg env).fileWriteInvoked = false ∧
    ∀ o, (generate_prompt cfg env).result = .ok o →
      ∃ p tc fs, o = .jsonOut p cfg.path_label tc env.modelInfo fs := by
  cases env with
  | mk et eh etr ed edb edl eu er etok emi ecl ew =>
    cases et with
    | error e => simp [generate_prompt]
    | ok tp =>
      cases eh with
      | error e => simp [generate_prompt]
      | ok u =>
        cases etr with
        | error e => simp [generate_prompt]
        | ok p =>
          cases p with
          | mk tree files =>
            simp only [generate_prompt]
            cases hb1 : branchText cfg.git_diff_branch edb with
            | error e => simp
            | ok gdb =>
              cases hb2 : branchText cfg.git_log_branch edl with
              | error e => simp
              | ok glb =>
                simp only [afterData]
                cases eu with
                | error e => simp
                | ok v =>
                  cases her : er ⟨cfg.path_label, tree, files,
                      (if cfg.diff then ed.getD "" else ""), gdb, glb⟩ with
                  | error e => simp
                  | ok rendered =>
                    simp [afterRender, hj]

/-- C10 witness: a JSON run with the clipboard enabled and an output path
given still skips both sinks and returns the JSON output. -/
theorem claim_C10_witness :
    (generate_prompt ⟨"lbl", none, none, false, none, none, some "out.txt",
        false, true⟩ envAllOk).clipboardInvoked = false ∧
    (generate_prompt ⟨"lbl", none, none, false, none, none, some "out.txt",
        false, true⟩ envAllOk).fileWriteInvoked = false ∧
    ∀ o, (generate_prompt ⟨"lbl", none, none, false, none, none,
        some "out.txt", false, true⟩ envAllOk).result = .ok o →
      ∃ p tc fs, o = .jsonOut p "lbl" tc "m" fs :=
  claim_C10 ⟨"lbl", none, none, false, none, none, some "out.txt", false,
    true⟩ envAllOk rfl

end Code2Prompt
